import Mathlib

/-!
# Verification of the DBN notebook (src/Autoencoders/DBN-Review.ipynb)

Shallow embedding of the two numeric classes of the repository — the `RBM`
(restricted Boltzmann machine, trained by one-step contrastive divergence)
and the `NN` feed-forward classifier — together with theorems settling the
frozen claims about them.

Modelling conventions:
* numpy/TensorFlow float32 tensors are modelled as total functions
  `ℕ → ℕ → ℚ` (matrices) and `ℕ → ℚ` (vectors); the shape of every tensor is
  carried separately, exactly as the source carries `input_size`,
  `output_size`, `X.shape[1]`, `len(X)` etc.;
* `tf.nn.sigmoid` is transcendental, so every definition takes the
  activation as an explicit parameter `sg : ℚ → ℚ`; the named instance
  `sigmoidQ` below is a rational stand-in used for concrete evaluation —
  the only facts about the logistic sigmoid any claim uses are
  `sigmoid 0 = 1/2` and `sigmoid x ≤ 1`, and `sigmoidQ` shares both;
* `tf.random_uniform` draws are explicit inputs: every `sess.run` of an op
  containing `tf.random_uniform` consumes one `RunDraws` record;
* a `sess.run(op, feed_dict)` is modelled as a pure function of the fed
  values and the draws, mirroring the TensorFlow graph of that op.
-/

/-- Rational-valued matrix: entry `i j` is row `i`, column `j`. Shapes are
carried separately by the definitions that consume a matrix. -/
abbrev QMat : Type := ℕ → ℕ → ℚ

/-- Rational-valued vector. -/
abbrev QVec : Type := ℕ → ℚ

/-- Embedding of `tf.matmul A B` where the inner (contracted) dimension is
`k`: `(A B) i j = ∑ l < k, A i l * B l j`. -/
def matmul (k : ℕ) (A B : QMat) : QMat :=
  fun i j => ∑ l in Finset.range k, A i l * B l j

/-- Embedding of `tf.transpose`. -/
def transposeQ (A : QMat) : QMat := fun i j => A j i

/-- Embedding of `tf.sign` on one entry: `1`, `0` or `-1`. -/
def signQ (x : ℚ) : ℚ := if 0 < x then 1 else if x < 0 then -1 else 0

/-- Embedding of `tf.nn.relu` on one entry: `max x 0`. -/
def reluQ (x : ℚ) : ℚ := max x 0

/-- Rational stand-in for `tf.nn.sigmoid` (the logistic function
`1/(1+e^-x)` is irrational); used only to instantiate the activation
parameter at concrete inputs.  Like the logistic sigmoid it satisfies
`sigmoidQ 0 = 1/2`, `0 < sigmoidQ x` and `sigmoidQ x ≤ 1`, which are the
only properties of the activation the claims depend on. -/
def sigmoidQ (x : ℚ) : ℚ := 1/2 + x / (2 * (1 + |x|))

/-- Embedding of Python `range(start, stop, step)` for a positive `step`. -/
def pyRange (start stop step : ℕ) : List ℕ :=
  (List.range ((stop - start + step - 1) / step)).map (fun k => start + k * step)

/-- The `(start, end)` pairs of the mini-batch loops of `RBM.train` and
`NN.train`: `zip(range(0, n, bs), range(bs, n, bs))` (notebook lines 151 and
436-437). -/
def batchPairs (n bs : ℕ) : List (ℕ × ℕ) :=
  (pyRange 0 n bs).zip (pyRange bs n bs)

/-- Python slice `X[s : s + rows]` of a row-major dataset: row `i` of the
slice is row `s + i` of `X`.  The row count of the slice is carried by the
consumer. -/
def sliceRows (X : QMat) (s : ℕ) : QMat := fun i j => X (s + i) j

/-! ## The RBM class -/

/-- State of an `RBM` object: the constructor arguments, the literal
hyperparameters, and the parameter arrays `w`, `hb`, `vb`
(`RBM.__init__`, notebook cell 6). -/
structure RBMState where
  input_size : ℕ
  output_size : ℕ
  epochs : ℕ
  learning_rate : ℚ
  batchsize : ℕ
  w : QMat
  hb : QVec
  vb : QVec

/-- `RBM.__init__(input_size, output_size)`: hyperparameters
`epochs = 5`, `learning_rate = 1.0`, `batchsize = 100`; weights and both
bias vectors initialized to zero. -/
def RBM.init (input_size output_size : ℕ) : RBMState :=
  { input_size := input_size
    output_size := output_size
    epochs := 5
    learning_rate := 1
    batchsize := 100
    w := fun _ _ => 0
    hb := fun _ => 0
    vb := fun _ => 0 }

/-- `RBM.prob_h_given_v(visible, w, hb) = tf.nn.sigmoid(tf.matmul(visible, w) + hb)`;
the contracted dimension is the visible width `nv`, and `hb` broadcasts
across rows. -/
def prob_h_given_v (sg : ℚ → ℚ) (nv : ℕ) (visible w : QMat) (hb : QVec) : QMat :=
  fun i j => sg (matmul nv visible w i j + hb j)

/-- `RBM.prob_v_given_h(hidden, w, vb) = tf.nn.sigmoid(tf.matmul(hidden, tf.transpose(w)) + vb)`;
the contracted dimension is the hidden width `nh`. -/
def prob_v_given_h (sg : ℚ → ℚ) (nh : ℕ) (hidden w : QMat) (vb : QVec) : QMat :=
  fun i j => sg (matmul nh hidden (transposeQ w) i j + vb j)

/-- `RBM.sample_prob(probs) = tf.nn.relu(tf.sign(probs - tf.random_uniform(tf.shape(probs))))`,
with the uniform draw tensor `u` made explicit. -/
def sample_prob (probs u : QMat) : QMat :=
  fun i j => reluQ (signQ (probs i j - u i j))

/-- One pair of `tf.random_uniform` draw tensors consumed by a single
`sess.run` of an op that evaluates `h0` (draws `uh`) and `v1` (draws `uv`). -/
structure RunDraws where
  uh : QMat
  uv : QMat

/-- `sess.run(update_w, feed_dict={v0: batch, _w: w, _hb: hb, _vb: vb})`:
`update_w = _w + learning_rate * (positive_grad - negative_grad) / tf.to_float(tf.shape(v0)[0])`
where `h0 = sample_prob(prob_h_given_v(v0, _w, _hb))`,
`v1 = sample_prob(prob_v_given_h(h0, _w, _vb))`, `h1 = prob_h_given_v(v1, _w, _hb)`,
`positive_grad = tf.matmul(tf.transpose(v0), h0)` and
`negative_grad = tf.matmul(tf.transpose(v1), h1)`; `rows` is the number of
rows of the fed batch (`tf.shape(v0)[0]`). -/
def update_w_run (sg : ℚ → ℚ) (lr : ℚ) (nv nh rows : ℕ)
    (w : QMat) (hb vb : QVec) (v0 : QMat) (d : RunDraws) : QMat :=
  let h0 := sample_prob (prob_h_given_v sg nv v0 w hb) d.uh
  let v1 := sample_prob (prob_v_given_h sg nh h0 w vb) d.uv
  let h1 := prob_h_given_v sg nv v1 w hb
  let positive_grad := matmul rows (transposeQ v0) h0
  let negative_grad := matmul rows (transposeQ v1) h1
  fun i j => w i j + lr * (positive_grad i j - negative_grad i j) / (rows : ℚ)

/-- `tf.reduce_mean(A, 0)` of a `rows × _` tensor: column-wise mean. -/
def reduce_mean0 (rows : ℕ) (A : QMat) : QVec :=
  fun j => (∑ i in Finset.range rows, A i j) / (rows : ℚ)

/-- `sess.run(update_vb, ...)`:
`update_vb = _vb + learning_rate * tf.reduce_mean(v0 - v1, 0)`, with fresh
draws for this run. -/
def update_vb_run (sg : ℚ → ℚ) (lr : ℚ) (nv nh rows : ℕ)
    (w : QMat) (hb vb : QVec) (v0 : QMat) (d : RunDraws) : QVec :=
  let h0 := sample_prob (prob_h_given_v sg nv v0 w hb) d.uh
  let v1 := sample_prob (prob_v_given_h sg nh h0 w vb) d.uv
  fun j => vb j + lr * reduce_mean0 rows (fun i j => v0 i j - v1 i j) j

/-- `sess.run(update_hb, ...)`:
`update_hb = _hb + learning_rate * tf.reduce_mean(h0 - h1, 0)`, with fresh
draws for this run. -/
def update_hb_run (sg : ℚ → ℚ) (lr : ℚ) (nv nh rows : ℕ)
    (w : QMat) (hb vb : QVec) (v0 : QMat) (d : RunDraws) : QVec :=
  let h0 := sample_prob (prob_h_given_v sg nv v0 w hb) d.uh
  let v1 := sample_prob (prob_v_given_h sg nh h0 w vb) d.uv
  let h1 := prob_h_given_v sg nv v1 w hb
  fun j => hb j + lr * reduce_mean0 rows (fun i j => h0 i j - h1 i j) j

/-- `sess.run(err, feed_dict={v0: X, _w: w, _vb: vb, _hb: hb})`:
`err = tf.reduce_mean(tf.square(v0 - v1))`, the mean over all `rows * nv`
entries, where `v1` is the sampled reconstruction of the fed dataset. -/
def err_run (sg : ℚ → ℚ) (nv nh rows : ℕ)
    (w : QMat) (hb vb : QVec) (X : QMat) (d : RunDraws) : ℚ :=
  let h0 := sample_prob (prob_h_given_v sg nv X w hb) d.uh
  let v1 := sample_prob (prob_v_given_h sg nh h0 w vb) d.uv
  (∑ i in Finset.range rows, ∑ j in Finset.range nv, (X i j - v1 i j) ^ 2)
    / ((rows : ℚ) * (nv : ℚ))

/-- The working parameter triple (`prv_w/cur_w`, `prv_hb/cur_hb`,
`prv_vb/cur_vb`) of `RBM.train`. -/
structure RBMParams where
  w : QMat
  hb : QVec
  vb : QVec

/-- The zero parameter triple `RBM.train` starts from
(`prv_w = np.zeros(...)` etc.). -/
def RBMParams.zero : RBMParams :=
  { w := fun _ _ => 0, hb := fun _ => 0, vb := fun _ => 0 }

/-- Draws for one pass of the inner batch loop: the three `sess.run` calls
(`update_w`, `update_hb`, `update_vb`) each re-evaluate the graph and
re-sample. -/
structure BatchDraws where
  dW : RunDraws
  dHb : RunDraws
  dVb : RunDraws

/-- Draws for one epoch: one `BatchDraws` per batch index, plus the draws of
the end-of-epoch `err` evaluation. -/
structure EpochDraws where
  batch : ℕ → BatchDraws
  errDraw : RunDraws

/-- One pass of the inner loop of `RBM.train` for the batch `X[se.1 : se.2]`:
all three update ops are fed the previous parameters `p` and the batch, and
their results become the new parameters. -/
def rbmBatchStep (sg : ℚ → ℚ) (lr : ℚ) (nv nh : ℕ) (X : QMat)
    (p : RBMParams) (se : ℕ × ℕ) (d : BatchDraws) : RBMParams :=
  let v0 := sliceRows X se.1
  let rows := se.2 - se.1
  { w := update_w_run sg lr nv nh rows p.w p.hb p.vb v0 d.dW
    hb := update_hb_run sg lr nv nh rows p.w p.hb p.vb v0 d.dHb
    vb := update_vb_run sg lr nv nh rows p.w p.hb p.vb v0 d.dVb }

/-- One epoch of `RBM.train`: fold the batch updates over
`zip(range(0, len(X), batchsize), range(batchsize, len(X), batchsize))`,
then evaluate `err` on the full dataset with the epoch's final parameters.
Returns the new parameters and the reported reconstruction error. -/
def rbmEpoch (sg : ℚ → ℚ) (lr : ℚ) (nv nh bs : ℕ) (X : QMat) (n : ℕ)
    (p : RBMParams) (ed : EpochDraws) : RBMParams × ℚ :=
  let p1 := ((batchPairs n bs).enum).foldl
    (fun q ie => rbmBatchStep sg lr nv nh X q ie.2 (ed.batch ie.1)) p
  (p1, err_run sg nv nh n p1.w p1.hb p1.vb X ed.errDraw)

/-- The epoch loop of `RBM.train`: starting from the zero parameter triple,
run `E` epochs, collecting the one reconstruction error printed per epoch.
(After every batch `prv_* := cur_*`, so a single parameter triple threads
through the fold exactly as in the source.) -/
def RBM.trainLoop (sg : ℚ → ℚ) (lr : ℚ) (nv nh bs E : ℕ) (X : QMat) (n : ℕ)
    (d : ℕ → EpochDraws) : RBMParams × List ℚ :=
  (List.range E).foldl
    (fun acc e =>
      let pe := rbmEpoch sg lr nv nh bs X n acc.1 (d e)
      (pe.1, acc.2 ++ [pe.2]))
    (RBMParams.zero, [])

/-- The `RBM.train(X)` method: run the epoch loop with the object's
hyperparameters (the object's current `w`, `hb`, `vb` are never fed to the
graph), then overwrite `self.w`, `self.hb`, `self.vb` with the final
parameters.  `n = len(X)`; returns the new object state and the list of
reported errors. -/
def RBM.trainMethod (sg : ℚ → ℚ) (s : RBMState) (X : QMat) (n : ℕ)
    (d : ℕ → EpochDraws) : RBMState × List ℚ :=
  let r := RBM.trainLoop sg s.learning_rate s.input_size s.output_size
    s.batchsize s.epochs X n d
  ({ s with w := r.1.w, hb := r.1.hb, vb := r.1.vb }, r.2)

/-- `RBM.rbm_output(X) = sess.run(tf.nn.sigmoid(tf.matmul(X, self.w) + self.hb))`:
a deterministic forward pass with the stored parameters; the method body
never assigns to `self`, so the returned state is the input state. -/
def RBM.rbm_output (sg : ℚ → ℚ) (s : RBMState) (X : QMat) : QMat × RBMState :=
  (fun i j => sg (matmul s.input_size X s.w i j + s.hb j), s)

/-! ## Spec-side formulations (written from the words of the claims) -/

/-- Spec-side stochastic binarization of a probability `p` against a uniform
draw `u`: `1` when the draw falls below the probability, else `0`. -/
def specBinarize (p u : ℚ) : ℚ := if u < p then 1 else 0

/-- Spec-side `h0`: stochastic binarization of `sigmoid(v0 w + hb)`. -/
def specH0 (sg : ℚ → ℚ) (nv : ℕ) (v0 w : QMat) (hb : QVec) (uh : QMat) : QMat :=
  fun i j => specBinarize (sg ((∑ k in Finset.range nv, v0 i k * w k j) + hb j)) (uh i j)

/-- Spec-side `v1`: stochastic binarization of `sigmoid(h0 wᵀ + vb)`. -/
def specV1 (sg : ℚ → ℚ) (nv nh : ℕ) (v0 w : QMat) (hb vb : QVec) (uh uv : QMat) : QMat :=
  fun i j => specBinarize
    (sg ((∑ k in Finset.range nh, specH0 sg nv v0 w hb uh i k * w j k) + vb j)) (uv i j)

/-- Spec-side `h1 = sigmoid(v1 w + hb)` (no sampling). -/
def specH1 (sg : ℚ → ℚ) (nv nh : ℕ) (v0 w : QMat) (hb vb : QVec) (uh uv : QMat) : QMat :=
  fun i j => sg ((∑ k in Finset.range nv, specV1 sg nv nh v0 w hb vb uh uv i k * w k j) + hb j)

/-- Spec-side mean squared reconstruction error over the entire dataset:
mean over all `n * nv` entries of the squared difference between the input
and its sampled reconstruction. -/
def specReconError (sg : ℚ → ℚ) (nv nh n : ℕ) (p : RBMParams) (X : QMat)
    (d : RunDraws) : ℚ :=
  (∑ i in Finset.range n, ∑ j in Finset.range nv,
    (X i j - specV1 sg nv nh X p.w p.hb p.vb d.uh d.uv i j) ^ 2)
    / ((n : ℚ) * (nv : ℚ))

/-- Parameter triple reached by `RBM.train` at the end of epoch `e`
(`rbmParamsUpto ... 0` is the zero start, `rbmParamsUpto ... (e+1)` the
result of epoch `e`). -/
def rbmParamsUpto (sg : ℚ → ℚ) (lr : ℚ) (nv nh bs : ℕ) (X : QMat) (n : ℕ)
    (d : ℕ → EpochDraws) : ℕ → RBMParams
  | 0 => RBMParams.zero
  | e + 1 => (rbmEpoch sg lr nv nh bs X n (rbmParamsUpto sg lr nv nh bs X n d e) (d e)).1

/-- The probability matrix of the sampled reconstruction inside an `err`
evaluation: `prob_v_given_h` applied to the sampled `h0` (the reconstruction
sample of `err_run` is the binarization of exactly this matrix). -/
def reconProb (sg : ℚ → ℚ) (nv nh : ℕ) (w : QMat) (hb vb : QVec) (X : QMat)
    (d : RunDraws) : QMat :=
  prob_v_given_h sg nh (sample_prob (prob_h_given_v sg nv X w hb) d.uh) w vb

/-! ## The NN class -/

/-- State of an `NN` object (`NN.__init__`, notebook cell 20): declared
hidden-layer sizes, the stored training arrays (with their shape data
`n = len(X)`, `xdim = X.shape[1]`, `ydim = Y.shape[1]`), the per-layer
weight and bias lists, and the literal hyperparameters. -/
structure NNState where
  sizes : List ℕ
  trX : QMat
  trY : QMat
  n : ℕ
  xdim : ℕ
  ydim : ℕ
  w_list : List QMat
  b_list : List QVec
  learning_rate : ℚ
  momentum : ℚ
  epoches : ℕ
  batchsize : ℕ

/-- Outcome of a failing `NN.load_from_rbms` call: one of the `assert`
statements fails, or an out-of-range list subscript raises `IndexError`. -/
inductive LoadErr where
  | assertionError : LoadErr
  | indexError : LoadErr
deriving DecidableEq

/-- True exactly on a non-raising (`Except.ok`) outcome. -/
def isOkE {e a : Type} : Except e a → Bool
  | Except.ok _ => true
  | Except.error _ => false

/-- `NN.load_from_rbms(dbn_sizes, rbm_list)`:
first `assert len(dbn_sizes) == len(self._sizes)`, then the loop of
elementwise asserts `dbn_sizes[i] == self._sizes[i]` (with equal lengths the
loop succeeds exactly when the two lists are equal), then the copy loop
`self.w_list[i] = rbm_list[i].w; self.b_list[i] = rbm_list[i].hb` for
`i < len(self._sizes)`, which raises `IndexError` when any of the three
lists is shorter than `len(self._sizes)`.  The RBM objects' own sizes are
never inspected. -/
def load_from_rbms (nn : NNState) (dbn_sizes : List ℕ) (rbm_list : List RBMState) :
    Except LoadErr NNState :=
  if dbn_sizes.length = nn.sizes.length then
    if dbn_sizes = nn.sizes then
      if nn.sizes.length ≤ rbm_list.length ∧ nn.sizes.length ≤ nn.w_list.length
          ∧ nn.sizes.length ≤ nn.b_list.length then
        Except.ok { nn with
          w_list := (rbm_list.take nn.sizes.length).map (fun r => r.w)
            ++ nn.w_list.drop nn.sizes.length
          b_list := (rbm_list.take nn.sizes.length).map (fun r => r.hb)
            ++ nn.b_list.drop nn.sizes.length }
      else Except.error LoadErr.indexError
    else Except.error LoadErr.assertionError
  else Except.error LoadErr.assertionError

/-- The weight/bias lists of the classifier as fed to (and retrieved from)
the TensorFlow variables of `NN.train`. -/
abbrev NNParams : Type := List QMat × List QVec

/-- The activation pipeline of `NN.train`:
`_a[i] = tf.nn.sigmoid(tf.matmul(_a[i-1], _w[i-1]) + _b[i-1])` folded over
all layers; `dims` lists each layer's fan-in (the contracted dimension of
its `matmul`). -/
def nnForward (sg : ℚ → ℚ) (ws : List QMat) (bs : List QVec) (dims : List ℕ)
    (A : QMat) : QMat :=
  (ws.zip (bs.zip dims)).foldl
    (fun acc wbd => fun i j => sg (matmul wbd.2.2 acc wbd.1 i j + wbd.2.1 j)) A

/-- The fan-in of each layer of the classifier: `X.shape[1]` for the first
layer, then the declared hidden sizes. -/
def layerDims (nn : NNState) : List ℕ := nn.xdim :: nn.sizes

/-- `np.argmax(row, axis sliced to width d)`: index of the first maximal
entry among columns `0 .. d-1`. -/
def argmaxRow (d : ℕ) (row : ℕ → ℚ) : ℕ :=
  (List.range d).foldl (fun best k => if row best < row k then k else best) 0

/-- `sess.run(predict_op, ...)` on row `i` of the training set:
`predict_op = tf.argmax(_a[-1], 1)` with the current session parameters. -/
def predictRow (sg : ℚ → ℚ) (p : NNParams) (nn : NNState) (i : ℕ) : ℕ :=
  argmaxRow nn.ydim (fun j => nnForward sg p.1 p.2 (layerDims nn) nn.trX i j)

/-- The per-epoch report of `NN.train`:
`np.mean(np.argmax(self._Y, axis=1) == sess.run(predict_op, ...))` — the
mean of the 0/1 agreement indicators over the full training set. -/
def accuracy_run (sg : ℚ → ℚ) (p : NNParams) (nn : NNState) : ℚ :=
  (∑ i in Finset.range nn.n,
    if argmaxRow nn.ydim (fun j => nn.trY i j) = predictRow sg p nn i
    then (1 : ℚ) else 0) / (nn.n : ℚ)

/-- The inner batch loop of one `NN.train` epoch:
`sess.run(train_op, feed_dict={_a[0]: X[start:end], y: Y[start:end]})`
folded over the batch pairs.  The optimizer update (`train_op`, built by
`tf.train.MomentumOptimizer(lr, momentum).minimize(cost)`) is TensorFlow
library code, so it is abstracted as the step function `optStep`, which maps
the current parameters and opaque optimizer state (the momentum slots) plus
the fed batch (and its row count) to new parameters and optimizer state. -/
def nnEpochBatches (OS : Type) (optStep : NNParams → OS → QMat → QMat → ℕ → NNParams × OS)
    (X Y : QMat) (n bs : ℕ) (q : NNParams × OS) : NNParams × OS :=
  (batchPairs n bs).foldl
    (fun q se => optStep q.1 q.2 (sliceRows X se.1) (sliceRows Y se.1) (se.2 - se.1)) q

/-- The epoch loop of `NN.train`: each epoch runs the batch loop, retrieves
the session parameters, and reports one accuracy value computed on the full
training set with those parameters. -/
def NN.trainLoop (sg : ℚ → ℚ) (OS : Type)
    (optStep : NNParams → OS → QMat → QMat → ℕ → NNParams × OS)
    (nn : NNState) (q0 : NNParams × OS) : (NNParams × OS) × List ℚ :=
  (List.range nn.epoches).foldl
    (fun acc _e =>
      let q := nnEpochBatches OS optStep nn.trX nn.trY nn.n nn.batchsize acc.1
      (q, acc.2 ++ [accuracy_run sg q.1 nn]))
    (q0, [])

/-- The `NN.train()` method: the session variables are initialized from
`self.w_list`/`self.b_list`, the epoch loop runs, and the retrieved
parameters of the last epoch are left in the object.  Returns the new state
and the list of reported accuracies. -/
def NN.train (sg : ℚ → ℚ) (OS : Type)
    (optStep : NNParams → OS → QMat → QMat → ℕ → NNParams × OS)
    (os0 : OS) (nn : NNState) : NNState × List ℚ :=
  let r := NN.trainLoop sg OS optStep nn ((nn.w_list, nn.b_list), os0)
  ({ nn with w_list := r.1.1.1, b_list := r.1.1.2 }, r.2)

/-- Session state (parameters plus optimizer state) of `NN.train` after `e`
epochs: `nnStateUpto ... 0` is the initial state, `nnStateUpto ... (e+1)`
the state at the end of epoch `e`. -/
def nnStateUpto (OS : Type) (optStep : NNParams → OS → QMat → QMat → ℕ → NNParams × OS)
    (nn : NNState) (q0 : NNParams × OS) : ℕ → NNParams × OS
  | 0 => q0
  | e + 1 => nnEpochBatches OS optStep nn.trX nn.trY nn.n nn.batchsize
      (nnStateUpto OS optStep nn q0 e)

/-- Spec-side accuracy: the fraction of training examples whose arg-max
predicted class equals the arg-max of the one-hot label. -/
def specAccuracy (sg : ℚ → ℚ) (p : NNParams) (nn : NNState) : ℚ :=
  (((Finset.range nn.n).filter
    (fun i => argmaxRow nn.ydim (fun j => nn.trY i j) = predictRow sg p nn i)).card : ℚ)
    / (nn.n : ℚ)

/-! ## The random initialization of `NN.__init__` (over ℝ, because of `math.sqrt`) -/

/-- `max_range = 4 * math.sqrt(6. / (input_size + size))` of the
initialization loop of `NN.__init__`. -/
noncomputable def max_range (input_size size : ℕ) : ℝ :=
  4 * Real.sqrt (6 / ((input_size : ℝ) + (size : ℝ)))

/-- `np.random.uniform(lo, hi)` at one entry, with the underlying unit
uniform draw `u ∈ [0, 1)` made explicit: inverse-transform scaling
`lo + (hi - lo) * u`. -/
noncomputable def np_random_uniform (lo hi u : ℝ) : ℝ := lo + (hi - lo) * u

/-- The initialization loop of `NN.__init__`: for each
`size in self._sizes + [Y.shape[1]]` append a weight matrix drawn entrywise
from `np.random.uniform(-max_range, max_range, [input_size, size])` and a
zero bias vector (`np.zeros([size])`), threading `input_size := size`.
`u l i j` is the unit draw of entry `(i, j)` of layer `l`. -/
noncomputable def NN.initLoop (u : ℕ → ℕ → ℕ → ℝ) :
    ℕ → ℕ → List ℕ → List ((ℕ → ℕ → ℝ) × (ℕ → ℝ))
  | _, _, [] => []
  | l, input_size, size :: rest =>
    (fun i j => np_random_uniform (-(max_range input_size size))
        (max_range input_size size) (u l i j),
      fun _ => 0) :: NN.initLoop u (l + 1) size rest

/-- The parameter lists built by `NN.__init__` for declared hidden sizes
`sizes`, `input_size = X.shape[1] = xdim` and output width
`Y.shape[1] = ydim`. -/
noncomputable def NN.initParams (sizes : List ℕ) (xdim ydim : ℕ)
    (u : ℕ → ℕ → ℕ → ℝ) : List ((ℕ → ℕ → ℝ) × (ℕ → ℝ)) :=
  NN.initLoop u 0 xdim (sizes ++ [ydim])

/-! ## Concrete instances used by witnesses and counterexamples -/

/-- The all-zero dataset. -/
def zeroQMat : QMat := fun _ _ => 0

/-- Draw tensors that are identically `0` (every uniform draw at the low end
of `[0, 1)`). -/
def zeroRunDraws : RunDraws := { uh := fun _ _ => 0, uv := fun _ _ => 0 }

/-- Epoch draws that are identically `0`. -/
def zeroEpochDraws : ℕ → EpochDraws :=
  fun _ => { batch := fun _ => { dW := zeroRunDraws, dHb := zeroRunDraws, dVb := zeroRunDraws }
             errDraw := zeroRunDraws }

/-- Error-evaluation draws with `uh = 0` and `uv = 9/10`: the hidden sample
draws are at the low end and the reconstruction draws dominate the
reconstruction probabilities of the zero-parameter RBM. -/
def highVDraws : ℕ → EpochDraws :=
  fun _ => { batch := fun _ => { dW := zeroRunDraws, dHb := zeroRunDraws, dVb := zeroRunDraws }
             errDraw := { uh := fun _ _ => 0, uv := fun _ _ => 9/10 } }

/-- A concrete classifier state with declared hidden sizes `[2]` and two
layers of (zero) parameters, used to exercise `load_from_rbms`. -/
def nnEx : NNState :=
  { sizes := [2]
    trX := zeroQMat
    trY := zeroQMat
    n := 0
    xdim := 5
    ydim := 1
    w_list := [fun _ _ => 0, fun _ _ => 0]
    b_list := [fun _ => 0, fun _ => 0]
    learning_rate := 1
    momentum := 0
    epoches := 10
    batchsize := 100 }

/-- A concrete classifier state for exercising `NN.train`: one example
(`n = 1`), one input column, one output column, a single layer. -/
def nnTrainEx : NNState :=
  { sizes := []
    trX := fun _ _ => 1
    trY := fun _ _ => 1
    n := 1
    xdim := 1
    ydim := 1
    w_list := [fun _ _ => 0]
    b_list := [fun _ => 0]
    learning_rate := 1
    momentum := 0
    epoches := 10
    batchsize := 100 }

/-- An optimizer step that leaves parameters unchanged (used only to
instantiate the abstract optimizer in witnesses). -/
def idOptStep : NNParams → Unit → QMat → QMat → ℕ → NNParams × Unit :=
  fun p os _ _ _ => (p, os)

/-- A concrete RBM state differing from `RBM.init 2 2` only in the visible
biases. -/
def rbmVbVar : RBMState := { RBM.init 2 2 with vb := fun _ => 7 }

/-- A concrete RBM state differing from `RBM.init 1 1` only in the stored
parameters. -/
def rbmWVar : RBMState :=
  { RBM.init 1 1 with w := fun _ _ => 5, hb := fun _ => 3, vb := fun _ => -2 }

/-- The classifier state produced by the successful transfer
`load_from_rbms nnEx [2] [RBM.init 3 7]`. -/
def nnExLoaded : NNState :=
  { nnEx with
    w_list := ([RBM.init 3 7].take nnEx.sizes.length).map (fun r => r.w)
      ++ nnEx.w_list.drop nnEx.sizes.length
    b_list := ([RBM.init 3 7].take nnEx.sizes.length).map (fun r => r.hb)
      ++ nnEx.b_list.drop nnEx.sizes.length }

/-- Default layer (zero weight matrix, zero bias vector) used with `List.getD`
on the real-valued initialization lists. -/
def layerDflR : (ℕ → ℕ → ℝ) × (ℕ → ℝ) := (fun _ _ => 0, fun _ => 0)

/-- A constant unit draw `1/2` for every weight entry of every layer. -/
noncomputable def halfDraw : ℕ → ℕ → ℕ → ℝ := fun _ _ _ => 1/2

/-! ## Theorems -/

theorem reluQ_signQ_eq_specBinarize (p u : ℚ) :
    reluQ (signQ (p - u)) = specBinarize p u := by
  unfold reluQ signQ specBinarize
  by_cases h : u < p
  · rw [if_pos (sub_pos.mpr h), if_pos h]
    norm_num
  · rw [if_neg h, if_neg (by rw [not_lt, sub_nonpos]; exact not_lt.mp h)]
    rcases lt_or_ge (p - u) 0 with h2 | h2
    · rw [if_pos h2]
      exact max_eq_right (by norm_num)
    · rw [if_neg (not_lt.mpr h2)]
      exact max_eq_right le_rfl

theorem h0_eq_spec (sg : ℚ → ℚ) (nv : ℕ) (v0 w : QMat) (hb : QVec) (uh : QMat) :
    sample_prob (prob_h_given_v sg nv v0 w hb) uh = specH0 sg nv v0 w hb uh := by
  funext i j
  rw [show sample_prob (prob_h_given_v sg nv v0 w hb) uh i j
      = reluQ (signQ (prob_h_given_v sg nv v0 w hb i j - uh i j)) from rfl,
    reluQ_signQ_eq_specBinarize]
  rfl

theorem v1_eq_spec (sg : ℚ → ℚ) (nv nh : ℕ) (v0 w : QMat) (hb vb : QVec) (uh uv : QMat) :
    sample_prob (prob_v_given_h sg nh (specH0 sg nv v0 w hb uh) w vb) uv
      = specV1 sg nv nh v0 w hb vb uh uv := by
  funext i j
  rw [show sample_prob (prob_v_given_h sg nh (specH0 sg nv v0 w hb uh) w vb) uv i j
      = reluQ (signQ (prob_v_given_h sg nh (specH0 sg nv v0 w hb uh) w vb i j - uv i j)) from rfl,
    reluQ_signQ_eq_specBinarize]
  rfl

theorem h1_eq_spec (sg : ℚ → ℚ) (nv nh : ℕ) (v0 w : QMat) (hb vb : QVec) (uh uv : QMat) :
    prob_h_given_v sg nv (specV1 sg nv nh v0 w hb vb uh uv) w hb
      = specH1 sg nv nh v0 w hb vb uh uv := by
  funext i j
  rfl

/-- C1: one contrastive-divergence batch update (the three update ops
evaluated with the same draws, i.e. with the sampled values `h0`, `v1`
fixed) changes the weights by `lr * (v0ᵀ h0 - v1ᵀ h1) / rows`, the visible
biases by `lr * mean(v0 - v1)` over the batch, and the hidden biases by
`lr * mean(h0 - h1)` over the batch, where `h0` is the stochastic
binarization of `sigmoid(v0 w + hb)`, `v1` the stochastic binarization of
`sigmoid(h0 wᵀ + vb)`, and `h1 = sigmoid(v1 w + hb)`; `rows` is the number
of rows of the fed mini-batch. -/
theorem C1_cd_update (sg : ℚ → ℚ) (lr : ℚ) (nv nh rows : ℕ)
    (w : QMat) (hb vb : QVec) (v0 : QMat) (d : RunDraws) :
    (∀ i j, update_w_run sg lr nv nh rows w hb vb v0 d i j
        = w i j + lr * ((∑ k in Finset.range rows, v0 k i * specH0 sg nv v0 w hb d.uh k j)
            - ∑ k in Finset.range rows,
                specV1 sg nv nh v0 w hb vb d.uh d.uv k i
                  * specH1 sg nv nh v0 w hb vb d.uh d.uv k j) / (rows : ℚ))
    ∧ (∀ j, update_vb_run sg lr nv nh rows w hb vb v0 d j
        = vb j + lr * ((∑ i in Finset.range rows,
            (v0 i j - specV1 sg nv nh v0 w hb vb d.uh d.uv i j)) / (rows : ℚ)))
    ∧ (∀ j, update_hb_run sg lr nv nh rows w hb vb v0 d j
        = hb j + lr * ((∑ i in Finset.range rows,
            (specH0 sg nv v0 w hb d.uh i j
              - specH1 sg nv nh v0 w hb vb d.uh d.uv i j)) / (rows : ℚ))) := by
  refine ⟨fun i j => ?_, fun j => ?_, fun j => ?_⟩
  · simp only [update_w_run, h0_eq_spec, v1_eq_spec, h1_eq_spec]
    rfl
  · simp only [update_vb_run, h0_eq_spec, v1_eq_spec]
    rfl
  · simp only [update_hb_run, h0_eq_spec, v1_eq_spec, h1_eq_spec]
    rfl

/-- C6: `RBM.rbm_output` returns exactly `sigmoid(X w + hb)` computed with
the stored weights and hidden biases, leaves the RBM state unchanged, and
its output depends only on the stored `w`, `hb` and the declared input
size (in particular not on `vb` and not on any random draws — the
definition takes none). -/
theorem C6_rbm_output (sg : ℚ → ℚ) (s : RBMState) (X : QMat) :
    (∀ i j, (RBM.rbm_output sg s X).1 i j
        = sg ((∑ k in Finset.range s.input_size, X i k * s.w k j) + s.hb j))
    ∧ (RBM.rbm_output sg s X).2 = s
    ∧ (∀ s' : RBMState, s.w = s'.w → s.hb = s'.hb → s.input_size = s'.input_size →
        (RBM.rbm_output sg s X).1 = (RBM.rbm_output sg s' X).1) := by
  refine ⟨fun i j => rfl, rfl, fun s' h1 h2 h3 => ?_⟩
  simp only [RBM.rbm_output, h1, h2, h3]

/-- Witness for C6 at a concrete input: two states sharing `w`, `hb` and
`input_size` but with different visible biases produce the same output. -/
theorem C6_rbm_output_witness :
    (RBM.rbm_output sigmoidQ (RBM.init 2 2) zeroQMat).1
      = (RBM.rbm_output sigmoidQ rbmVbVar zeroQMat).1 :=
  (C6_rbm_output sigmoidQ (RBM.init 2 2) zeroQMat).2.2 rbmVbVar rfl rfl rfl

/-- C10: `RBM.train` never reads the object's current parameters — two RBM
states agreeing on sizes and hyperparameters but with arbitrarily different
`w`, `hb`, `vb` produce identical final parameters and identical reported
errors under the same data and draws; and a second `train` call on the
result (same data and draws) returns the very same state and errors, i.e.
training restarts from zero rather than resuming. -/
theorem C10_train_ignores_params (sg : ℚ → ℚ) (s1 s2 : RBMState) (X : QMat)
    (n : ℕ) (d : ℕ → EpochDraws)
    (h1 : s1.input_size = s2.input_size) (h2 : s1.output_size = s2.output_size)
    (h3 : s1.epochs = s2.epochs) (h4 : s1.learning_rate = s2.learning_rate)
    (h5 : s1.batchsize = s2.batchsize) :
    ((RBM.trainMethod sg s1 X n d).1.w = (RBM.trainMethod sg s2 X n d).1.w
      ∧ (RBM.trainMethod sg s1 X n d).1.hb = (RBM.trainMethod sg s2 X n d).1.hb
      ∧ (RBM.trainMethod sg s1 X n d).1.vb = (RBM.trainMethod sg s2 X n d).1.vb
      ∧ (RBM.trainMethod sg s1 X n d).2 = (RBM.trainMethod sg s2 X n d).2)
    ∧ RBM.trainMethod sg (RBM.trainMethod sg s1 X n d).1 X n d
        = RBM.trainMethod sg s1 X n d := by
  constructor
  · simp only [RBM.trainMethod, h1, h2, h3, h4, h5]
    exact ⟨trivial, trivial, trivial, trivial⟩
  · rfl

/-- Witness for C10 at concrete inputs: `RBM.init 1 1` and the same state
with nonzero stored parameters train to the same weights. -/
theorem C10_train_ignores_params_witness :
    (RBM.trainMethod sigmoidQ (RBM.init 1 1) zeroQMat 1 zeroEpochDraws).1.w
      = (RBM.trainMethod sigmoidQ rbmWVar zeroQMat 1 zeroEpochDraws).1.w :=
  (C10_train_ignores_params sigmoidQ (RBM.init 1 1) rbmWVar zeroQMat 1 zeroEpochDraws
    rfl rfl rfl rfl rfl).1.1

theorem trainLoop_eq_paramsUpto (sg : ℚ → ℚ) (lr : ℚ) (nv nh bs : ℕ) (X : QMat)
    (n : ℕ) (d : ℕ → EpochDraws) :
    ∀ E, RBM.trainLoop sg lr nv nh bs E X n d
      = (rbmParamsUpto sg lr nv nh bs X n d E,
         (List.range E).map (fun e =>
           (rbmEpoch sg lr nv nh bs X n (rbmParamsUpto sg lr nv nh bs X n d e) (d e)).2)) := by
  intro E
  induction E with
  | zero => rfl
  | succ E ih =>
    unfold RBM.trainLoop at ih ⊢
    rw [List.range_succ, List.foldl_append, ih]
    simp only [List.foldl_cons, List.foldl_nil, List.map_append, List.map_cons, List.map_nil,
      rbmParamsUpto]

theorem err_run_eq_spec (sg : ℚ → ℚ) (nv nh n : ℕ) (w : QMat) (hb vb : QVec)
    (X : QMat) (dr : RunDraws) :
    err_run sg nv nh n w hb vb X dr
      = specReconError sg nv nh n { w := w, hb := hb, vb := vb } X dr := by
  unfold err_run specReconError
  simp only [h0_eq_spec, v1_eq_spec]

theorem rbmEpoch_err_eq_spec (sg : ℚ → ℚ) (lr : ℚ) (nv nh bs : ℕ) (X : QMat)
    (n : ℕ) (p : RBMParams) (ed : EpochDraws) :
    (rbmEpoch sg lr nv nh bs X n p ed).2
      = specReconError sg nv nh n (rbmEpoch sg lr nv nh bs X n p ed).1 X ed.errDraw :=
  err_run_eq_spec sg nv nh n _ _ _ X ed.errDraw

theorem getD_map_range {α : Type} (f : ℕ → α) (dflt : α) (E e : ℕ) (he : e < E) :
    ((List.range E).map f).getD e dflt = f e := by
  rw [List.getD_eq_getElem?_getD, List.getElem?_map, List.getElem?_range he]
  rfl

/-- C4: `RBM.train` reports exactly one reconstruction-error value per
epoch (`epochs` many in total), and the value reported for epoch `e` is the
mean over the entire dataset of the squared difference between the input
and its sampled reconstruction, evaluated with the parameters reached at
the end of epoch `e`. -/
theorem C4_epoch_error_report (sg : ℚ → ℚ) (s : RBMState) (X : QMat) (n : ℕ)
    (d : ℕ → EpochDraws) :
    ((RBM.trainMethod sg s X n d).2).length = s.epochs
    ∧ ∀ e, e < s.epochs →
        ((RBM.trainMethod sg s X n d).2).getD e 0
          = specReconError sg s.input_size s.output_size n
              (rbmParamsUpto sg s.learning_rate s.input_size s.output_size s.batchsize
                X n d (e + 1))
              X ((d e).errDraw) := by
  have hm : (RBM.trainMethod sg s X n d).2
      = (List.range s.epochs).map (fun e =>
          (rbmEpoch sg s.learning_rate s.input_size s.output_size s.batchsize X n
            (rbmParamsUpto sg s.learning_rate s.input_size s.output_size s.batchsize X n d e)
            (d e)).2) := by
    simp only [RBM.trainMethod, trainLoop_eq_paramsUpto]
  constructor
  · rw [hm]
    simp
  · intro e he
    rw [hm, getD_map_range _ _ _ _ he, rbmEpoch_err_eq_spec]
    rfl

/-- Witness for C4 at concrete inputs: the first reported error of a `1 × 1`
RBM trained on the one-row zero dataset with all-zero draws matches the
spec-side mean-squared-error formula. -/
theorem C4_epoch_error_report_witness :
    ((RBM.trainMethod sigmoidQ (RBM.init 1 1) zeroQMat 1 zeroEpochDraws).2).getD 0 0
      = specReconError sigmoidQ 1 1 1
          (rbmParamsUpto sigmoidQ 1 1 1 100 zeroQMat 1 zeroEpochDraws 1)
          zeroQMat ((zeroEpochDraws 0).errDraw) :=
  (C4_epoch_error_report sigmoidQ (RBM.init 1 1) zeroQMat 1 zeroEpochDraws).2 0 (by decide)

/-- Counterexample to C3: a freshly constructed `1 × 1` RBM trained on the
one-row all-zero dataset reports reconstruction error `1` (not `0`) when
every uniform draw is `0` — the error is evaluated on a *sampled*
reconstruction whose probability at zero parameters is `sigmoid 0 = 1/2`,
so the outcome with low draws reconstructs a `1` from a `0` input. -/
theorem C3_counterexample :
    ((RBM.trainMethod sigmoidQ (RBM.init 1 1) zeroQMat 1 zeroEpochDraws).2).getD 0 0 = 1 := by
  simp only [RBM.trainMethod]
  rw [trainLoop_eq_paramsUpto]
  rw [getD_map_range _ _ _ 0 (by decide : 0 < (RBM.init 1 1).epochs)]
  have hbp : batchPairs 1 (RBM.init 1 1).batchsize = [] := rfl
  simp only [rbmEpoch, hbp, List.enum_nil, List.foldl_nil]
  norm_num [err_run, sample_prob, prob_v_given_h, prob_h_given_v, matmul, transposeQ,
    rbmParamsUpto, RBMParams.zero, zeroQMat, zeroEpochDraws, zeroRunDraws, reluQ, signQ,
    sigmoidQ, RBM.init, Finset.sum_range_one]

theorem sample_zero_of_le (p u : ℚ) (h : p ≤ u) : reluQ (signQ (p - u)) = 0 := by
  unfold reluQ signQ
  rw [if_neg (by rw [not_lt, sub_nonpos]; exact h)]
  rcases lt_or_ge (p - u) 0 with h2 | h2
  · rw [if_pos h2]
    exact max_eq_right (by norm_num)
  · rw [if_neg (not_lt.mpr h2)]
    exact max_eq_right le_rfl

/-- C3 amended: for a freshly constructed RBM and a constant-zero dataset
the reported reconstruction error is `0` for every outcome of the
stochastic binarization draws in which each reconstruction draw is at least
the corresponding reconstruction probability (such outcomes exist, the
probabilities being strictly below `1`); it is not `0` for every outcome
(see the counterexample). -/
theorem C3_amended_zero_error (sg : ℚ → ℚ) (nv nh : ℕ) (X : QMat) (n : ℕ)
    (d : ℕ → EpochDraws) (hX : ∀ i j, X i j = 0)
    (hd : ∀ e, e < 5 → ∀ i, i < n → ∀ j, j < nv →
      reconProb sg nv nh (rbmParamsUpto sg 1 nv nh 100 X n d (e + 1)).w
        (rbmParamsUpto sg 1 nv nh 100 X n d (e + 1)).hb
        (rbmParamsUpto sg 1 nv nh 100 X n d (e + 1)).vb
        X ((d e).errDraw) i j ≤ ((d e).errDraw).uv i j) :
    ∀ e, e < 5 →
      ((RBM.trainMethod sg (RBM.init nv nh) X n d).2).getD e 0 = 0 := by
  intro e he
  simp only [RBM.trainMethod]
  rw [trainLoop_eq_paramsUpto]
  rw [getD_map_range _ _ ((RBM.init nv nh).epochs) e he]
  rw [rbmEpoch_err_eq_spec]
  have hp : (rbmEpoch sg (RBM.init nv nh).learning_rate (RBM.init nv nh).input_size
      (RBM.init nv nh).output_size (RBM.init nv nh).batchsize X n
      (rbmParamsUpto sg (RBM.init nv nh).learning_rate (RBM.init nv nh).input_size
        (RBM.init nv nh).output_size (RBM.init nv nh).batchsize X n d e) (d e)).1
      = rbmParamsUpto sg 1 nv nh 100 X n d (e + 1) := rfl
  rw [hp]
  unfold specReconError
  rw [Finset.sum_eq_zero, zero_div]
  intro i hi
  rw [Finset.sum_eq_zero]
  intro j hj
  rw [hX i j]
  have hv1 : specV1 sg (RBM.init nv nh).input_size (RBM.init nv nh).output_size X
      (rbmParamsUpto sg 1 nv nh 100 X n d (e + 1)).w
      (rbmParamsUpto sg 1 nv nh 100 X n d (e + 1)).hb
      (rbmParamsUpto sg 1 nv nh 100 X n d (e + 1)).vb
      ((d e).errDraw).uh ((d e).errDraw).uv i j = 0 := by
    rw [← v1_eq_spec, ← h0_eq_spec]
    have hle := hd e he i (Finset.mem_range.mp hi) j (Finset.mem_range.mp hj)
    exact sample_zero_of_le _ _ hle
  rw [hv1]
  norm_num

/-- Witness for the amended C3 at concrete inputs: the `1 × 1` RBM on the
one-row zero dataset with reconstruction draws `9/10` (which dominate the
reconstruction probability `sigmoid 0 = 1/2`) reports error `0`. -/
theorem C3_amended_zero_error_witness :
    ((RBM.trainMethod sigmoidQ (RBM.init 1 1) zeroQMat 1 highVDraws).2).getD 0 0 = 0 := by
  have hz : ∀ k, rbmParamsUpto sigmoidQ 1 1 1 100 zeroQMat 1 highVDraws k = RBMParams.zero := by
    intro k
    induction k with
    | zero => rfl
    | succ k ih =>
      show (rbmEpoch sigmoidQ 1 1 1 100 zeroQMat 1
        (rbmParamsUpto sigmoidQ 1 1 1 100 zeroQMat 1 highVDraws k) (highVDraws k)).1 = _
      rw [ih]
      have hbp : batchPairs 1 100 = [] := rfl
      simp only [rbmEpoch, hbp, List.enum_nil, List.foldl_nil]
  refine C3_amended_zero_error sigmoidQ 1 1 zeroQMat 1 highVDraws (fun _ _ => rfl) ?_ 0 (by decide)
  intro e _he i hi j hj
  have hi0 : i = 0 := by omega
  have hj0 : j = 0 := by omega
  subst hi0
  subst hj0
  rw [hz (e + 1)]
  norm_num [reconProb, prob_v_given_h, prob_h_given_v, sample_prob, matmul, transposeQ,
    RBMParams.zero, zeroQMat, highVDraws, sigmoidQ, signQ, reluQ, Finset.sum_range_one]

theorem pyRange_lt {start stop step : ℕ} (hstep : 0 < step) :
    ∀ x ∈ pyRange start stop step, x < stop := by
  intro x hx
  simp only [pyRange, List.mem_map, List.mem_range] at hx
  obtain ⟨k, hk, rfl⟩ := hx
  have h1 : (k + 1) * step ≤ ((stop - start + step - 1) / step) * step :=
    Nat.mul_le_mul_right _ hk
  have h2 : ((stop - start + step - 1) / step) * step ≤ stop - start + step - 1 :=
    Nat.div_mul_le_self _ _
  have h3 : (k + 1) * step = k * step + step := by ring
  have h4 : k * step + step ≤ stop - start + step - 1 := by
    rw [h3] at h1
    exact le_trans h1 h2
  clear h1 h2 h3 hk
  omega

theorem batchPairs_empty {n bs : ℕ} (hbs : 0 < bs) (h : n ≤ bs) :
    batchPairs n bs = [] := by
  unfold batchPairs pyRange
  have hz : (n - bs + bs - 1) / bs = 0 := Nat.div_eq_of_lt (by omega)
  rw [hz]
  simp

/-- C9: the mini-batch loops of `RBM.train` and `NN.train` iterate over
`zip(range(0, n, bs), range(bs, n, bs))`; every batch endpoint is strictly
below `n`, so the last example (index `n - 1`) is never placed in any
training batch, and when `n ≤ bs` the pair list is empty, so no training
update is performed at all (one epoch of either loop returns its parameters
unchanged). -/
theorem C9_last_example_never_trained (n bs : ℕ) (hbs : 0 < bs) :
    (∀ se ∈ batchPairs n bs, se.2 < n ∧ ∀ i, se.1 ≤ i → i < se.2 → i ≠ n - 1)
    ∧ (n ≤ bs → batchPairs n bs = [])
    ∧ (∀ (sg : ℚ → ℚ) (lr : ℚ) (nv nh : ℕ) (X : QMat) (p : RBMParams) (ed : EpochDraws),
        n ≤ bs → (rbmEpoch sg lr nv nh bs X n p ed).1 = p)
    ∧ (∀ (OS : Type) (optStep : NNParams → OS → QMat → QMat → ℕ → NNParams × OS)
        (X Y : QMat) (q : NNParams × OS),
        n ≤ bs → nnEpochBatches OS optStep X Y n bs q = q) := by
  refine ⟨?_, fun h => batchPairs_empty hbs h, ?_, ?_⟩
  · rintro ⟨s, e⟩ hse
    have he : e ∈ pyRange bs n bs := (List.of_mem_zip hse).2
    have hlt : e < n := pyRange_lt hbs e he
    exact ⟨hlt, fun i _ h2 => by omega⟩
  · intro sg lr nv nh X p ed h
    have hbp := batchPairs_empty hbs h
    simp [rbmEpoch, hbp]
  · intro OS optStep X Y q h
    have hbp := batchPairs_empty hbs h
    simp [nnEpochBatches, hbp]

/-- Witness for C9 at concrete inputs: with `n = 250`, `bs = 100` the pair
`(100, 200)` is a batch and its endpoint stays below `250`; with `n = 5`,
`bs = 100` there are no batches. -/
theorem C9_last_example_never_trained_witness :
    (200 : ℕ) < 250 ∧ batchPairs 5 100 = [] :=
  ⟨((C9_last_example_never_trained 250 100 (by decide)).1 (100, 200) (by decide)).1,
    (C9_last_example_never_trained 5 100 (by decide)).2.1 (by decide)⟩

/-- Counterexample to C2: the declared list `[2]` matches the classifier's
hidden sizes, and the single supplied RBM has sizes `3 → 7`, disagreeing
with `2` — yet `load_from_rbms` succeeds: the RBM units' own sizes are
never checked. -/
theorem C2_counterexample :
    (RBM.init 3 7).input_size ≠ 2 ∧ (RBM.init 3 7).output_size ≠ 2
    ∧ nnEx.sizes = [2]
    ∧ isOkE (load_from_rbms nnEx [2] [RBM.init 3 7]) = true := by
  refine ⟨by decide, by decide, rfl, rfl⟩

/-- C2 amended: `NN.load_from_rbms` raises its precondition failure
(assertion) exactly when the supplied layer-size list differs from the
classifier's declared hidden-layer sizes — the sizes of the RBM units in
the supplied list are never checked — and when the lists are equal it
succeeds, overwriting each hidden layer's weights and biases with the
corresponding RBM's weight matrix and hidden-bias vector (the hypotheses
only rule out the separate `IndexError` of the copy loop on too-short
lists). -/
theorem C2_amended_assert_iff (nn : NNState) (dbn_sizes : List ℕ)
    (rbm_list : List RBMState)
    (h1 : nn.sizes.length ≤ rbm_list.length)
    (h2 : nn.sizes.length ≤ nn.w_list.length)
    (h3 : nn.sizes.length ≤ nn.b_list.length) :
    (load_from_rbms nn dbn_sizes rbm_list = Except.error LoadErr.assertionError
      ↔ dbn_sizes ≠ nn.sizes)
    ∧ (dbn_sizes = nn.sizes →
        load_from_rbms nn dbn_sizes rbm_list = Except.ok { nn with
          w_list := (rbm_list.take nn.sizes.length).map (fun r => r.w)
            ++ nn.w_list.drop nn.sizes.length
          b_list := (rbm_list.take nn.sizes.length).map (fun r => r.hb)
            ++ nn.b_list.drop nn.sizes.length }) := by
  have hok : dbn_sizes = nn.sizes →
      load_from_rbms nn dbn_sizes rbm_list = Except.ok { nn with
        w_list := (rbm_list.take nn.sizes.length).map (fun r => r.w)
          ++ nn.w_list.drop nn.sizes.length
        b_list := (rbm_list.take nn.sizes.length).map (fun r => r.hb)
          ++ nn.b_list.drop nn.sizes.length } := by
    intro heq
    subst heq
    unfold load_from_rbms
    rw [if_pos rfl, if_pos rfl, if_pos ⟨h1, h2, h3⟩]
  refine ⟨⟨fun h heq => ?_, fun hne => ?_⟩, hok⟩
  · rw [hok heq] at h
    exact Except.noConfusion h
  · unfold load_from_rbms
    by_cases hl : dbn_sizes.length = nn.sizes.length
    · rw [if_pos hl, if_neg hne]
    · rw [if_neg hl]

/-- Witness for the amended C2 at concrete inputs: with declared sizes `[2]`
and supplied list `[3]` the call raises the assertion. -/
theorem C2_amended_assert_iff_witness :
    load_from_rbms nnEx [3] [RBM.init 3 7] = Except.error LoadErr.assertionError :=
  ((C2_amended_assert_iff nnEx [3] [RBM.init 3 7] (by decide) (by decide) (by decide)).1).mpr
    (by decide)

theorem take_map_congr {α β : Type} (F : α → β) (d0 : α) :
    ∀ (k : ℕ) (l l' : List α), l'.length = l.length →
      (∀ i, i < l.length → F (l'.getD i d0) = F (l.getD i d0)) →
      (l'.take k).map F = (l.take k).map F := by
  intro k
  induction k with
  | zero =>
    intro l l' _ _
    simp
  | succ k ih =>
    intro l l' hlen hptw
    cases l with
    | nil =>
      cases l' with
      | nil => simp
      | cons a t => simp at hlen
    | cons a t =>
      cases l' with
      | nil => simp at hlen
      | cons a' t' =>
        simp only [List.take_succ_cons, List.map_cons]
        have h0 := hptw 0 (by simp)
        simp only [List.getD_cons_zero] at h0
        have ht : (t'.take k).map F = (t.take k).map F := by
          refine ih t t' (by simpa using hlen) (fun i hi => ?_)
          have := hptw (i + 1) (by simpa using Nat.succ_lt_succ hi)
          simpa only [List.getD_cons_succ] using this
        rw [h0, ht]

theorem drop_append_of_length {a : Type} (P L2 : List a) (k : ℕ) (hP : P.length = k) :
    (P ++ L2).drop k = L2 := by
  subst hP
  exact List.drop_left P L2

/-- C5: a successful `load_from_rbms` call writes only the hidden-layer
entries of `w_list`/`b_list` — everything from position
`len(self._sizes)` on (in particular the final output layer) is unchanged,
list lengths and all other fields are unchanged — and the RBMs' visible
biases are never read: replacing the supplied RBM list by any list with the
same length and the same weight matrices and hidden biases (but arbitrary
visible biases) yields the very same result. -/
theorem C5_transfer_frame (nn : NNState) (dbn_sizes : List ℕ)
    (rbm_list : List RBMState) (nn' : NNState)
    (h : load_from_rbms nn dbn_sizes rbm_list = Except.ok nn') :
    nn'.w_list.drop nn.sizes.length = nn.w_list.drop nn.sizes.length
    ∧ nn'.b_list.drop nn.sizes.length = nn.b_list.drop nn.sizes.length
    ∧ nn'.w_list.length = nn.w_list.length
    ∧ nn'.b_list.length = nn.b_list.length
    ∧ nn'.sizes = nn.sizes ∧ nn'.trX = nn.trX ∧ nn'.trY = nn.trY
    ∧ ∀ rbm_list' : List RBMState, rbm_list'.length = rbm_list.length →
        (∀ i, i < rbm_list.length →
          (rbm_list'.getD i (RBM.init 0 0)).w = (rbm_list.getD i (RBM.init 0 0)).w
          ∧ (rbm_list'.getD i (RBM.init 0 0)).hb = (rbm_list.getD i (RBM.init 0 0)).hb) →
        load_from_rbms nn dbn_sizes rbm_list' = Except.ok nn' := by
  unfold load_from_rbms at h
  by_cases hl : dbn_sizes.length = nn.sizes.length
  case neg =>
    rw [if_neg hl] at h
    exact Except.noConfusion h
  rw [if_pos hl] at h
  by_cases he : dbn_sizes = nn.sizes
  case neg =>
    rw [if_neg he] at h
    exact Except.noConfusion h
  rw [if_pos he] at h
  by_cases hlen : nn.sizes.length ≤ rbm_list.length ∧ nn.sizes.length ≤ nn.w_list.length
      ∧ nn.sizes.length ≤ nn.b_list.length
  case neg =>
    rw [if_neg hlen] at h
    exact Except.noConfusion h
  rw [if_pos hlen] at h
  obtain ⟨hr, hw, hb2⟩ := hlen
  have hnn' : nn' = { nn with
      w_list := (rbm_list.take nn.sizes.length).map (fun r => r.w)
        ++ nn.w_list.drop nn.sizes.length
      b_list := (rbm_list.take nn.sizes.length).map (fun r => r.hb)
        ++ nn.b_list.drop nn.sizes.length } := by
    cases h
    rfl
  subst hnn'
  have hlenw : ((rbm_list.take nn.sizes.length).map (fun r => r.w)).length
      = nn.sizes.length := by
    simp [List.length_map, List.length_take]
    omega
  have hlenb : ((rbm_list.take nn.sizes.length).map (fun r => r.hb)).length
      = nn.sizes.length := by
    simp [List.length_map, List.length_take]
    omega
  refine ⟨?_, ?_, ?_, ?_, rfl, rfl, rfl, ?_⟩
  · exact drop_append_of_length _ _ _ hlenw
  · exact drop_append_of_length _ _ _ hlenb
  · simp only [List.length_append, List.length_map, List.length_take, List.length_drop]
    omega
  · simp only [List.length_append, List.length_map, List.length_take, List.length_drop]
    omega
  · intro rbm_list' hlen' hptw
    unfold load_from_rbms
    rw [if_pos hl, if_pos he, if_pos ⟨by omega, hw, hb2⟩]
    have hwmap : (rbm_list'.take nn.sizes.length).map (fun r => r.w)
        = (rbm_list.take nn.sizes.length).map (fun r => r.w) :=
      take_map_congr (fun r => r.w) (RBM.init 0 0) nn.sizes.length rbm_list rbm_list'
        hlen' (fun i hi => (hptw i hi).1)
    have hbmap : (rbm_list'.take nn.sizes.length).map (fun r => r.hb)
        = (rbm_list.take nn.sizes.length).map (fun r => r.hb) :=
      take_map_congr (fun r => r.hb) (RBM.init 0 0) nn.sizes.length rbm_list rbm_list'
        hlen' (fun i hi => (hptw i hi).2)
    rw [hwmap, hbmap]

/-- Witness for C5 at concrete inputs: after the successful transfer into
`nnEx`, the part of the weight list from position `len(sizes)` on — the
output layer — is unchanged. -/
theorem C5_transfer_frame_witness :
    nnExLoaded.w_list.drop nnEx.sizes.length = nnEx.w_list.drop nnEx.sizes.length :=
  (C5_transfer_frame nnEx [2] [RBM.init 3 7] nnExLoaded rfl).1

theorem nnTrainLoop_eq (sg : ℚ → ℚ) (OS : Type)
    (optStep : NNParams → OS → QMat → QMat → ℕ → NNParams × OS)
    (nn : NNState) (q0 : NNParams × OS) :
    NN.trainLoop sg OS optStep nn q0
      = (nnStateUpto OS optStep nn q0 nn.epoches,
         (List.range nn.epoches).map
           (fun e => accuracy_run sg (nnStateUpto OS optStep nn q0 (e + 1)).1 nn)) := by
  unfold NN.trainLoop
  generalize nn.epoches = E
  induction E with
  | zero => rfl
  | succ E ih =>
    rw [List.range_succ, List.foldl_append, ih]
    simp only [List.foldl_cons, List.foldl_nil, List.map_append, List.map_cons, List.map_nil,
      nnStateUpto]

theorem accuracy_run_eq_spec (sg : ℚ → ℚ) (p : NNParams) (nn : NNState) :
    accuracy_run sg p nn = specAccuracy sg p nn := by
  unfold accuracy_run specAccuracy
  rw [Finset.sum_boole]

theorem accuracy_run_bounds (sg : ℚ → ℚ) (p : NNParams) (nn : NNState) :
    0 ≤ accuracy_run sg p nn ∧ accuracy_run sg p nn ≤ 1 := by
  unfold accuracy_run
  constructor
  · apply div_nonneg
    · apply Finset.sum_nonneg
      intro i _
      split_ifs <;> norm_num
    · exact Nat.cast_nonneg _
  · rcases Nat.eq_zero_or_pos nn.n with h | h
    · rw [h]
      norm_num
    · rw [div_le_one (by exact_mod_cast h)]
      calc (∑ i in Finset.range nn.n,
            if argmaxRow nn.ydim (fun j => nn.trY i j) = predictRow sg p nn i
            then (1 : ℚ) else 0)
          ≤ ∑ _i in Finset.range nn.n, (1 : ℚ) := by
            apply Finset.sum_le_sum
            intro i _
            split_ifs <;> norm_num
        _ = nn.n := by simp

/-- C7: `NN.train` reports one accuracy per epoch; the value reported after
epoch `e` equals the fraction of training examples whose arg-max predicted
class (computed with the parameters updated during that epoch) equals the
arg-max of the one-hot label, and every reported accuracy lies in `[0, 1]`.
The statement holds for every optimizer step function, i.e. it does not
depend on the abstracted `MomentumOptimizer` update. -/
theorem C7_epoch_accuracy (sg : ℚ → ℚ) (OS : Type)
    (optStep : NNParams → OS → QMat → QMat → ℕ → NNParams × OS)
    (os0 : OS) (nn : NNState) :
    ((NN.train sg OS optStep os0 nn).2).length = nn.epoches
    ∧ (∀ e, e < nn.epoches →
        ((NN.train sg OS optStep os0 nn).2).getD e 0
          = specAccuracy sg
              (nnStateUpto OS optStep nn ((nn.w_list, nn.b_list), os0) (e + 1)).1 nn)
    ∧ (∀ a ∈ (NN.train sg OS optStep os0 nn).2, 0 ≤ a ∧ a ≤ 1) := by
  have hm : (NN.train sg OS optStep os0 nn).2
      = (List.range nn.epoches).map
          (fun e => accuracy_run sg
            (nnStateUpto OS optStep nn ((nn.w_list, nn.b_list), os0) (e + 1)).1 nn) := by
    simp only [NN.train, nnTrainLoop_eq]
  refine ⟨by rw [hm]; simp, fun e he => ?_, fun a ha => ?_⟩
  · rw [hm, getD_map_range _ _ _ e he, accuracy_run_eq_spec]
  · rw [hm] at ha
    obtain ⟨e, _, rfl⟩ := List.mem_map.mp ha
    exact accuracy_run_bounds sg _ nn

/-- Witness for C7 at concrete inputs: the first reported accuracy of a
one-layer classifier on a one-example dataset (with the identity optimizer
step) equals the spec-side fraction with the epoch-end parameters, and lies
in `[0, 1]`. -/
theorem C7_epoch_accuracy_witness :
    ((NN.train sigmoidQ Unit idOptStep () nnTrainEx).2).getD 0 0
      = specAccuracy sigmoidQ
          (nnStateUpto Unit idOptStep nnTrainEx ((nnTrainEx.w_list, nnTrainEx.b_list), ()) 1).1
          nnTrainEx
    ∧ 0 ≤ ((NN.train sigmoidQ Unit idOptStep () nnTrainEx).2).getD 0 0 :=
  ⟨(C7_epoch_accuracy sigmoidQ Unit idOptStep () nnTrainEx).2.1 0 (by decide),
    by
      rw [(C7_epoch_accuracy sigmoidQ Unit idOptStep () nnTrainEx).2.1 0 (by decide)]
      unfold specAccuracy
      positivity⟩

theorem max_range_nonneg (a b : ℕ) : 0 ≤ max_range a b := by
  unfold max_range
  positivity

theorem initLoop_entry_bounds (u : ℕ → ℕ → ℕ → ℝ)
    (hu : ∀ l i j, 0 ≤ u l i j ∧ u l i j < 1) :
    ∀ (szs : List ℕ) (l0 n0 k : ℕ), k < szs.length → ∀ i j,
      |((NN.initLoop u l0 n0 szs).getD k layerDflR).1 i j|
        ≤ max_range ((n0 :: szs).getD k 0) (szs.getD k 0)
      ∧ |((NN.initLoop u l0 n0 szs).getD k layerDflR).2 i|
        ≤ max_range ((n0 :: szs).getD k 0) (szs.getD k 0) := by
  intro szs
  induction szs with
  | nil =>
    intro l0 n0 k hk i j
    simp at hk
  | cons size rest ih =>
    intro l0 n0 k hk i j
    cases k with
    | zero =>
      simp only [NN.initLoop, List.getD_cons_zero]
      have hm := max_range_nonneg n0 size
      have hu1 := (hu l0 i j).1
      have hu2 := (hu l0 i j).2
      constructor
      · unfold np_random_uniform
        rw [abs_le]
        have hprod1 : 0 ≤ max_range n0 size * u l0 i j := mul_nonneg hm hu1
        have hprod2 : max_range n0 size * u l0 i j ≤ max_range n0 size * 1 :=
          mul_le_mul_of_nonneg_left (le_of_lt hu2) hm
        constructor <;> nlinarith
      · rw [show |(0 : ℝ)| = 0 from abs_zero]
        exact hm
    | succ k =>
      simp only [NN.initLoop, List.getD_cons_succ]
      exact ih (l0 + 1) size k (by simpa using hk) i j

/-- C8: every parameter created by the initialization loop of
`NN.__init__` lies in the interval `[-r, r]` with
`r = 4 * sqrt(6 / (fan_in + fan_out))` of its layer, provided every
underlying unit uniform draw lies in `[0, 1)`: the weight entries are the
scaled uniform draws `-r + 2r*u`, and the bias entries are `0`, which also
lies in the interval. -/
theorem C8_init_bounded_uniform (sizes : List ℕ) (xdim ydim : ℕ)
    (u : ℕ → ℕ → ℕ → ℝ) (hu : ∀ l i j, 0 ≤ u l i j ∧ u l i j < 1)
    (k : ℕ) (hk : k < (sizes ++ [ydim]).length) (i j : ℕ) :
    |((NN.initParams sizes xdim ydim u).getD k layerDflR).1 i j|
      ≤ max_range ((xdim :: (sizes ++ [ydim])).getD k 0) ((sizes ++ [ydim]).getD k 0)
    ∧ |((NN.initParams sizes xdim ydim u).getD k layerDflR).2 i|
      ≤ max_range ((xdim :: (sizes ++ [ydim])).getD k 0) ((sizes ++ [ydim]).getD k 0) :=
  initLoop_entry_bounds u hu (sizes ++ [ydim]) 0 xdim k hk i j

/-- Witness for C8 at concrete inputs: with hidden sizes `[2]`, input width
`3`, output width `1` and all unit draws `1/2`, the entry `(0, 0)` of the
first layer's weight matrix lies within `4 * sqrt(6 / (3 + 2))` of zero. -/
theorem C8_init_bounded_uniform_witness :
    |((NN.initParams [2] 3 1 halfDraw).getD 0 layerDflR).1 0 0|
      ≤ max_range ((3 :: ([2] ++ [1])).getD 0 0) (([2] ++ [1]).getD 0 0) :=
  (C8_init_bounded_uniform [2] 3 1 halfDraw
    (fun _ _ _ => by unfold halfDraw; norm_num) 0 (by decide) 0 0).1
